import Mathlib

/-!
# Verification of the batch-fetch concurrency-limited fetch library

Shallow embedding of the repository's core: the global configuration
(`src/config.ts`), the admission-control store (`src/store.ts`) and the
batch runner plus result utilities (`src/batch-fetch.ts`).

JS numbers carried by the configuration are modelled as rationals `ℚ`
(`Number.isInteger q` becomes `q.den = 1`; numeric truthiness becomes
`q ≠ 0`).  Fallible operations (`throw`) are modelled with `Except`.
The store's event-driven behaviour is modelled as a state machine over
`StoreState`, driven by `submit` / `settle` events; each event is one
non-preemptible event-loop turn, matching the single-threaded model the
source relies on.
-/

namespace BatchFetch

/-- Model of a JS `RequestInit` object: only the identity of each field
matters to the claims, so fields are opaque `Option Nat` values
(`none` = property absent). -/
structure RequestInitModel where
  method : Option Nat := none
  headers : Option Nat := none
  signal : Option Nat := none
deriving DecidableEq

/-- `BatchFetchConfig` from `src/types.ts`, with every field present
(the stored configuration is `Required<BatchFetchConfig>`). -/
structure BatchFetchConfig where
  concurrency : ℚ
  timeout : ℚ
  defaultInit : RequestInitModel
deriving DecidableEq

/-- `DEFAULT_CONFIG` from `src/config.ts` (no `navigator`, so
concurrency defaults to 10; timeout 30000 ms; empty defaultInit). -/
def DEFAULT_CONFIG : BatchFetchConfig :=
  { concurrency := 10, timeout := 30000, defaultInit := {} }

/-- A `Partial<BatchFetchConfig>` argument: each field optionally present. -/
structure ConfigPatch where
  concurrency : Option ℚ := none
  timeout : Option ℚ := none
  defaultInit : Option RequestInitModel := none
deriving DecidableEq

/-- JS `Number.isInteger(x)` on a possibly-absent number
(`Number.isInteger(undefined) = false`). -/
def numIsInteger : Option ℚ → Bool
  | some q => if q.den = 1 then true else false
  | none => false

/-- JS truthiness of a possibly-absent number: `0` and `undefined` are falsy. -/
def jsTruthyNum : Option ℚ → Bool
  | some q => if q = 0 then false else true
  | none => false

/-- `GlobalConfig.validateConcurrency` from `src/config.ts`. -/
def validateConcurrency (c : ℚ) : Except String Unit :=
  if c < 1 then .error "Concurrency must be at least 1" else .ok ()

/-- `GlobalConfig.validateTimeout` from `src/config.ts`. -/
def validateTimeout (t : ℚ) : Except String Unit :=
  if t < 0 then .error "Timeout must be non-negative" else .ok ()

/-- `GlobalConfig.validateConfig` from `src/config.ts`: concurrency is
checked only under an `if (Number.isInteger(config.concurrency))` guard,
and timeout only under an `if (config.timeout)` truthiness guard. -/
def validateConfig (p : ConfigPatch) : Except String Unit :=
  match (if numIsInteger p.concurrency
         then validateConcurrency (p.concurrency.getD 0)
         else .ok ()) with
  | .error e => .error e
  | .ok () =>
    if jsTruthyNum p.timeout then validateTimeout (p.timeout.getD 0) else .ok ()

/-- `GlobalConfig.updateConfig` from `src/config.ts`: validate, then apply
provided fields with `??` (nullish coalescing) over the existing ones.  An
`Except.error` models the thrown `Error`; the caller's stored configuration
is unchanged in that case since no new record is produced. -/
def updateConfig (cfg : BatchFetchConfig) (p : ConfigPatch) :
    Except String BatchFetchConfig :=
  match validateConfig p with
  | .error e => .error e
  | .ok () => .ok
      { concurrency := p.concurrency.getD cfg.concurrency
        timeout := p.timeout.getD cfg.timeout
        defaultInit := p.defaultInit.getD cfg.defaultInit }

/-- The configuration-handling prefix of `fetchList` in `src/batch-fetch.ts`:
`if (globalConfig) { globalFetchStore.updateConfig(globalConfig); }`.
The result is the global configuration observed after the call (there is no
restore step anywhere in `fetchList`). -/
def fetchListApplyConfig (globalCfg : BatchFetchConfig)
    (override : Option ConfigPatch) : Except String BatchFetchConfig :=
  match override with
  | none => .ok globalCfg
  | some p => updateConfig globalCfg p

/-- Effective timeout in `_executeFetchInternal` (`src/store.ts`):
`const timeoutMs = init?.timeout || GlobalConfig.instance.timeout;`
— falsy coalescing, so a per-request `0` falls back to the configured value. -/
def effectiveTimeout (initTimeout : Option ℚ) (configTimeout : ℚ) : ℚ :=
  if jsTruthyNum initTimeout then initTimeout.getD 0 else configTimeout

/-- The timeout guard armed by `_executeFetchInternal`:
`setTimeout(() => controller.abort(), timeoutMs)` is executed
unconditionally, so the guard is always armed (`some delay`); `none`
would mean "no timer armed". -/
def timeoutGuard (initTimeout : Option ℚ) (configTimeout : ℚ) : Option ℚ :=
  some (effectiveTimeout initTimeout configTimeout)

/-- Modelled from the spec's words for comparison (refinement check only):
the claimed guard uses `options.timeoutMs ?? configuration.timeoutMs` and
treats a zero effective value as "no timeout" (no timer armed). -/
def specTimeoutGuard (initTimeout : Option ℚ) (configTimeout : ℚ) : Option ℚ :=
  let v := initTimeout.getD configTimeout
  if v == 0 then none else some v

/-- The timeout forwarding in `fetch` (`src/batch-fetch.ts`):
`{ ...fetchInit, ...(timeout && { timeout }) }` — the `timeout` key is
added only when the per-request value is truthy. -/
def fetchPassedTimeout (timeout : Option ℚ) : Option ℚ :=
  if jsTruthyNum timeout then timeout else none

/-- Merge performed by `_executeFetchInternal` (`src/store.ts`):
`{ ...GlobalConfig.instance.defaultInit, ...init, signal: controller.signal }`.
Spread semantics: a key present in `init` overrides the default; the
trailing explicit `signal:` assignment always wins. -/
def mergeInit (dflt : RequestInitModel) (init : Option RequestInitModel)
    (storeSignal : Nat) : RequestInitModel :=
  let merged : RequestInitModel :=
    match init with
    | none => dflt
    | some i =>
      { method := (i.method.orElse fun _ => dflt.method)
        headers := (i.headers.orElse fun _ => dflt.headers)
        signal := (i.signal.orElse fun _ => dflt.signal) }
  { merged with signal := some storeSignal }

/-! ## The admission-control store (`src/store.ts`) as a state machine

Requests are identified by the order of their submission (`nextId` is the
next fresh id).  `running` lists the requests whose transport call is in
flight, `queue` the queued closures (by request id), `timersArmed` the
request ids whose timeout guard is armed.  `enqueued` and `admitted` are
history variables recording, in order, the requests that were ever pushed
onto the queue and the ones later shifted out of it for execution. -/

structure StoreState where
  active : Nat
  running : List Nat
  queue : List Nat
  timersArmed : List Nat
  nextId : Nat
  enqueued : List Nat
  admitted : List Nat
deriving DecidableEq

/-- A fresh `GlobalFetchStore`: `_activeRequests = 0`, `_requestQueue = []`. -/
def initialStore : StoreState :=
  { active := 0, running := [], queue := [], timersArmed := []
    nextId := 0, enqueued := [], admitted := [] }

/-- How a transport call settles: resolved, rejected by the network, or
rejected because the store's own timeout guard aborted it. -/
inductive Outcome where
  | success : Outcome
  | failure : Outcome
  | timedOut : Outcome
deriving DecidableEq

/-- One event-loop turn touching the store: a new submission
(`executeFetch` call) or the settlement of running request `id`. -/
inductive Event where
  | submit : Event
  | settle : Nat → Outcome → Event
deriving DecidableEq

/-- Entry of `_executeFetchInternal` for request `id`: arms the timeout
guard (`setTimeout`) and increments `_activeRequests`, both before the
first `await` — one atomic turn. -/
def beginExecution (s : StoreState) (id : Nat) : StoreState :=
  { s with timersArmed := s.timersArmed ++ [id]
           active := s.active + 1
           running := s.running ++ [id] }

/-- `executeFetch`: if `_activeRequests >= this.config.concurrency` the
request is pushed onto `_requestQueue` (tail); otherwise it executes
immediately. -/
def executeFetch (C : Nat) (s : StoreState) : StoreState :=
  let id := s.nextId
  let s1 := { s with nextId := id + 1 }
  if C ≤ s.active then
    { s1 with queue := s1.queue ++ [id], enqueued := s1.enqueued ++ [id] }
  else
    beginExecution s1 id

/-- `clearTimeout(timeoutId)`: disarm request `id`'s timeout guard. -/
def clearTimer (s : StoreState) (id : Nat) : StoreState :=
  { s with timersArmed := s.timersArmed.erase id }

/-- The `finally` block of `_executeFetchInternal`: `this._activeRequests--`. -/
def releaseSlot (s : StoreState) (id : Nat) : StoreState :=
  { s with active := s.active - 1, running := s.running.erase id }

/-- `_processNextQueuedRequest`: if the queue is non-empty and
`_activeRequests < this.config.concurrency`, shift the head and begin its
execution (`_executeFetchInternal` via the queued closure). -/
def processNextQueuedRequest (C : Nat) (s : StoreState) : StoreState :=
  match s.queue with
  | [] => s
  | id :: rest =>
    if s.active < C then
      beginExecution { s with queue := rest, admitted := s.admitted ++ [id] } id
    else s

/-- Settlement of running request `id` with outcome `o`: the source clears
the timeout guard on the success path (after `await fetch`) and on the
catch path alike, then the `finally` block decrements the counter and
attempts one drain.  Invalid settlements (id not running) do nothing. -/
def settleRequest (C : Nat) (s : StoreState) (id : Nat) (o : Outcome) :
    StoreState :=
  if id ∈ s.running then
    let s1 :=
      match o with
      | .success => clearTimer s id
      | .failure => clearTimer s id
      | .timedOut => clearTimer s id
    processNextQueuedRequest C (releaseSlot s1 id)
  else s

/-- One event step of the store. -/
def stepEvent (C : Nat) (s : StoreState) : Event → StoreState
  | .submit => executeFetch C s
  | .settle id o => settleRequest C s id o

/-- Run a sequence of events against a fresh store under concurrency `C`. -/
def runEvents (C : Nat) (es : List Event) : StoreState :=
  es.foldl (stepEvent C) initialStore

/-- `getStatus()` from `src/store.ts`: the exact shape of the returned
record — `{ activeRequests, queueLength, config }`.  (Note: the source's
return type has exactly these three fields; there is no `concurrency`
field.) -/
structure FetchStatus where
  activeRequests : Nat
  queueLength : Nat
  config : BatchFetchConfig
deriving DecidableEq

/-- `getStatus` from `src/store.ts`, reading a store state and the global
configuration snapshot. -/
def getStatus (s : StoreState) (cfg : BatchFetchConfig) : FetchStatus :=
  { activeRequests := s.active, queueLength := s.queue.length, config := cfg }

/-! ## The batch runner (`fetchList`) and result utilities
(`src/batch-fetch.ts`) -/

/-- A standardized `FetchArgs` entry: resource descriptor plus optional
per-request options (resources are opaque ids). -/
structure FetchArgsModel where
  resource : Nat
  init : Option RequestInitModel := none
deriving DecidableEq

/-- `BatchFetchResult` from `src/types.ts` (responses opaque ids, errors
their messages). -/
structure BatchFetchResult where
  resource : Nat
  init : Option RequestInitModel
  response : Option Nat
  error : Option String
  success : Bool
  index : Nat
deriving DecidableEq

/-- Placeholder used with `List.getD`. -/
def dummyResult : BatchFetchResult :=
  { resource := 0, init := none, response := none, error := none
    success := false, index := 0 }

/-- The task body added by `fetchList` for entry `r` at position `i`
(`src/batch-fetch.ts`): the awaited `executeFetch` either resolves
(`response`, `success: true`) or throws (`error`, `success: false`),
and the outcome is tagged with the original `index`. -/
def mkOutcome (r : FetchArgsModel) (i : Nat) :
    Except String Nat → BatchFetchResult
  | .ok resp =>
    { resource := r.resource, init := r.init, response := some resp
      error := none, success := true, index := i }
  | .error e =>
    { resource := r.resource, init := r.init, response := none
      error := some e, success := false, index := i }

/-- `standardizedRequests.forEach((reqArgs, index) => batch.add(...))`
followed by `batch.process()`: one outcome per entry, collected in
submission order, each tagged with its submission index.  `transport i`
is the settlement of the task at position `i`. -/
def fetchListTasks (transport : Nat → Except String Nat) :
    Nat → List FetchArgsModel → List BatchFetchResult
  | _, [] => []
  | i, r :: rest => mkOutcome r i (transport i) :: fetchListTasks transport (i + 1) rest

/-- `fetchList` from `src/batch-fetch.ts` (result assembly): empty input
short-circuits to `[]`; otherwise every entry becomes one outcome. -/
def fetchList (reqs : List FetchArgsModel)
    (transport : Nat → Except String Nat) : List BatchFetchResult :=
  if reqs.isEmpty then [] else fetchListTasks transport 0 reqs

/-- `getSuccessfulResults` from `src/batch-fetch.ts`:
`results.filter((result) => result.success)`. -/
def getSuccessfulResults (results : List BatchFetchResult) :
    List BatchFetchResult :=
  results.filter (fun r => r.success)

/-- `getFailedResults` from `src/batch-fetch.ts`:
`results.filter((result) => !result.success)`. -/
def getFailedResults (results : List BatchFetchResult) :
    List BatchFetchResult :=
  results.filter (fun r => !r.success)

/-- The store invariant, relating all components of a reachable state. -/
structure Inv (C : Nat) (s : StoreState) : Prop where
  active_eq : s.active = s.running.length
  active_le : s.active ≤ C
  timers_eq : s.timersArmed = s.running
  enq_eq : s.enqueued = s.admitted ++ s.queue
  enq_sorted : s.enqueued.Pairwise (· < ·)
  nodup : (s.running ++ s.queue).Nodup
  run_lt : ∀ x ∈ s.running, x < s.nextId
  queue_lt : ∀ x ∈ s.queue, x < s.nextId
  enq_lt : ∀ x ∈ s.enqueued, x < s.nextId

theorem inv_initial (C : Nat) : Inv C initialStore := by
  constructor <;> simp [initialStore]

theorem inv_executeFetch (C : Nat) (s : StoreState) (h : Inv C s) :
    Inv C (executeFetch C s) := by
  have hfresh : s.nextId ∉ s.running ++ s.queue := by
    intro hmem
    rcases List.mem_append.1 hmem with h1 | h1
    · exact absurd (h.run_lt _ h1) (lt_irrefl _)
    · exact absurd (h.queue_lt _ h1) (lt_irrefl _)
  unfold executeFetch
  by_cases hcap : C ≤ s.active
  · rw [if_pos hcap]
    constructor
    · exact h.active_eq
    · exact h.active_le
    · exact h.timers_eq
    · show s.enqueued ++ [s.nextId] = s.admitted ++ (s.queue ++ [s.nextId])
      rw [h.enq_eq, List.append_assoc]
    · show (s.enqueued ++ [s.nextId]).Pairwise (· < ·)
      refine List.pairwise_append.2 ⟨h.enq_sorted, List.pairwise_singleton _ _, ?_⟩
      intro a ha b hb
      rw [List.mem_singleton] at hb
      subst hb
      exact h.enq_lt a ha
    · show (s.running ++ (s.queue ++ [s.nextId])).Nodup
      rw [← List.append_assoc]
      refine List.nodup_append.2 ⟨h.nodup, List.nodup_singleton _, ?_⟩
      intro a ha hb
      rw [List.mem_singleton] at hb
      subst hb
      exact hfresh ha
    · intro x hx
      exact Nat.lt_succ_of_lt (h.run_lt x hx)
    · intro x hx
      rcases List.mem_append.1 hx with h1 | h1
      · exact Nat.lt_succ_of_lt (h.queue_lt x h1)
      · rw [List.mem_singleton] at h1
        subst h1
        exact Nat.lt_succ_self _
    · intro x hx
      rcases List.mem_append.1 hx with h1 | h1
      · exact Nat.lt_succ_of_lt (h.enq_lt x h1)
      · rw [List.mem_singleton] at h1
        subst h1
        exact Nat.lt_succ_self _
  · rw [if_neg hcap]
    have hlt : s.active < C := Nat.not_le.1 hcap
    constructor
    · show s.active + 1 = (s.running ++ [s.nextId]).length
      rw [List.length_append, h.active_eq]
      rfl
    · exact Nat.succ_le_of_lt hlt
    · show s.timersArmed ++ [s.nextId] = s.running ++ [s.nextId]
      rw [h.timers_eq]
    · exact h.enq_eq
    · exact h.enq_sorted
    · show ((s.running ++ [s.nextId]) ++ s.queue).Nodup
      rw [List.append_assoc, List.singleton_append]
      exact List.nodup_middle.2 (List.nodup_cons.2 ⟨hfresh, h.nodup⟩)
    · intro x hx
      rcases List.mem_append.1 hx with h1 | h1
      · exact Nat.lt_succ_of_lt (h.run_lt x h1)
      · rw [List.mem_singleton] at h1
        subst h1
        exact Nat.lt_succ_self _
    · intro x hx
      exact Nat.lt_succ_of_lt (h.queue_lt x hx)
    · intro x hx
      exact Nat.lt_succ_of_lt (h.enq_lt x hx)

theorem inv_processNext (C : Nat) (s : StoreState) (h : Inv C s) :
    Inv C (processNextQueuedRequest C s) := by
  unfold processNextQueuedRequest
  split
  · exact h
  · rename_i j rest heq
    split
    · rename_i hlt
      have hj : j ∈ s.queue := by
        rw [heq]
        exact List.mem_cons_self _ _
      constructor
      · show s.active + 1 = (s.running ++ [j]).length
        rw [List.length_append, h.active_eq]
        rfl
      · exact Nat.succ_le_of_lt hlt
      · show s.timersArmed ++ [j] = s.running ++ [j]
        rw [h.timers_eq]
      · show s.enqueued = (s.admitted ++ [j]) ++ rest
        rw [h.enq_eq, heq, List.append_assoc, List.singleton_append]
      · exact h.enq_sorted
      · show ((s.running ++ [j]) ++ rest).Nodup
        rw [List.append_assoc, List.singleton_append]
        have hn := h.nodup
        rw [heq] at hn
        exact hn
      · intro x hx
        rcases List.mem_append.1 hx with h1 | h1
        · exact h.run_lt x h1
        · rw [List.mem_singleton] at h1
          subst h1
          exact h.queue_lt _ hj
      · intro x hx
        refine h.queue_lt x ?_
        rw [heq]
        exact List.mem_cons_of_mem _ hx
      · exact h.enq_lt
    · exact h

theorem inv_settleRelease (C : Nat) (s : StoreState) (id : Nat) (h : Inv C s)
    (hid : id ∈ s.running) : Inv C (releaseSlot (clearTimer s id) id) := by
  constructor
  · show s.active - 1 = (s.running.erase id).length
    rw [h.active_eq, List.length_erase_of_mem hid]
  · exact Nat.le_trans (Nat.sub_le _ _) h.active_le
  · show s.timersArmed.erase id = s.running.erase id
    rw [h.timers_eq]
  · exact h.enq_eq
  · exact h.enq_sorted
  · show (s.running.erase id ++ s.queue).Nodup
    exact h.nodup.sublist ((List.erase_sublist id s.running).append_right s.queue)
  · intro x hx
    exact h.run_lt x (List.mem_of_mem_erase hx)
  · exact h.queue_lt
  · exact h.enq_lt

theorem inv_settleRequest (C : Nat) (s : StoreState) (id : Nat) (o : Outcome)
    (h : Inv C s) : Inv C (settleRequest C s id o) := by
  unfold settleRequest
  split
  · rename_i hid
    cases o <;> exact inv_processNext C _ (inv_settleRelease C s id h hid)
  · exact h

theorem inv_stepEvent (C : Nat) (s : StoreState) (e : Event) (h : Inv C s) :
    Inv C (stepEvent C s e) := by
  cases e with
  | submit => exact inv_executeFetch C s h
  | settle id o => exact inv_settleRequest C s id o h

theorem inv_foldl (C : Nat) :
    ∀ (es : List Event) (s : StoreState), Inv C s →
      Inv C (es.foldl (stepEvent C) s)
  | [], _, h => h
  | e :: es, s, h => inv_foldl C es (stepEvent C s e) (inv_stepEvent C s e h)

theorem inv_runEvents (C : Nat) (es : List Event) : Inv C (runEvents C es) :=
  inv_foldl C es initialStore (inv_initial C)

theorem processNext_timersArmed (C : Nat) (s : StoreState) :
    (processNextQueuedRequest C s).timersArmed = s.timersArmed
    ∨ ∃ j rest, s.queue = j :: rest ∧
        (processNextQueuedRequest C s).timersArmed = s.timersArmed ++ [j] := by
  unfold processNextQueuedRequest
  split
  · exact Or.inl rfl
  · rename_i j rest heq
    split
    · exact Or.inr ⟨j, rest, heq, rfl⟩
    · exact Or.inl rfl

theorem settle_timer_disarmed (C : Nat) (s : StoreState) (id : Nat)
    (o : Outcome) (h : Inv C s) (hid : id ∈ s.running) :
    id ∉ (settleRequest C s id o).timersArmed := by
  have hparts := List.nodup_append.1 h.nodup
  have hrn : s.running.Nodup := hparts.1
  have hnotq : id ∉ s.queue := fun hq => hparts.2.2 hid hq
  have hrel : settleRequest C s id o
      = processNextQueuedRequest C (releaseSlot (clearTimer s id) id) := by
    unfold settleRequest
    rw [if_pos hid]
    cases o <;> rfl
  rw [hrel]
  rcases processNext_timersArmed C (releaseSlot (clearTimer s id) id) with
    hcase | ⟨j, rest, heq, hcase⟩
  · rw [hcase]
    show id ∉ s.timersArmed.erase id
    rw [h.timers_eq]
    exact hrn.not_mem_erase
  · rw [hcase]
    intro hmem
    rcases List.mem_append.1 hmem with h1 | h1
    · have h2 : id ∈ s.timersArmed.erase id := h1
      rw [h.timers_eq] at h2
      exact hrn.not_mem_erase h2
    · rw [List.mem_singleton] at h1
      subst h1
      have hq : id ∈ s.queue := by
        have h3 : s.queue = id :: rest := heq
        rw [h3]
        exact List.mem_cons_self _ _
      exact hnotq hq

theorem fetchListTasks_length (transport : Nat → Except String Nat) :
    ∀ (start : Nat) (reqs : List FetchArgsModel),
      (fetchListTasks transport start reqs).length = reqs.length
  | _, [] => rfl
  | start, _ :: rest => by
    show (fetchListTasks transport (start + 1) rest).length + 1 = rest.length + 1
    rw [fetchListTasks_length transport (start + 1) rest]

theorem fetchListTasks_getD (transport : Nat → Except String Nat) :
    ∀ (reqs : List FetchArgsModel) (start i : Nat), i < reqs.length →
      (fetchListTasks transport start reqs).getD i dummyResult
        = mkOutcome (reqs.getD i { resource := 0, init := none }) (start + i)
            (transport (start + i)) := by
  intro reqs
  induction reqs with
  | nil =>
    intro start i hi
    exact absurd hi (Nat.not_lt_zero i)
  | cons r rest ih =>
    intro start i hi
    cases i with
    | zero => rfl
    | succ i2 =>
      have h2 : i2 < rest.length := Nat.lt_of_succ_lt_succ hi
      show (fetchListTasks transport (start + 1) rest).getD i2 dummyResult = _
      rw [ih (start + 1) i2 h2]
      have harith : start + 1 + i2 = start + (i2 + 1) := by omega
      rw [harith]
      rfl

theorem mkOutcome_fields (r : FetchArgsModel) (i : Nat)
    (res : Except String Nat) :
    (mkOutcome r i res).index = i
    ∧ (mkOutcome r i res).success = (mkOutcome r i res).response.isSome
    ∧ (mkOutcome r i res).response.isSome = !(mkOutcome r i res).error.isSome
    ∧ (mkOutcome r i res).resource = r.resource
    ∧ (mkOutcome r i res).init = r.init := by
  cases res <;> exact ⟨rfl, rfl, rfl, rfl, rfl⟩

/-- C1: for every configured concurrency `C ≥ 1` and every sequence of
submissions and settlements, the store's active-request count and the
number of in-flight transport calls never exceed `C` at any quiescent
point; moreover a submission arriving while `activeCount ≥ C` leaves the
in-flight set unchanged and appends the request to the queue instead. -/
theorem activeCount_le_concurrency (C : Nat) (es : List Event)
    (_hC : 1 ≤ C) :
    (runEvents C es).active ≤ C
    ∧ (runEvents C es).running.length ≤ C
    ∧ (C ≤ (runEvents C es).active →
        (executeFetch C (runEvents C es)).running = (runEvents C es).running
        ∧ (executeFetch C (runEvents C es)).queue
            = (runEvents C es).queue ++ [(runEvents C es).nextId]) := by
  have h := inv_runEvents C es
  refine ⟨h.active_le, ?_, ?_⟩
  · rw [← h.active_eq]
    exact h.active_le
  · intro hcap
    unfold executeFetch
    rw [if_pos hcap]
    exact ⟨rfl, rfl⟩

theorem activeCount_le_concurrency_witness :
    1 ≤ 2
    ∧ ((runEvents 2 [Event.submit, Event.submit, Event.submit]).active ≤ 2
      ∧ (runEvents 2 [Event.submit, Event.submit, Event.submit]).running.length ≤ 2
      ∧ (2 ≤ (runEvents 2 [Event.submit, Event.submit, Event.submit]).active →
          (executeFetch 2 (runEvents 2 [Event.submit, Event.submit, Event.submit])).running
              = (runEvents 2 [Event.submit, Event.submit, Event.submit]).running
          ∧ (executeFetch 2 (runEvents 2 [Event.submit, Event.submit, Event.submit])).queue
              = (runEvents 2 [Event.submit, Event.submit, Event.submit]).queue
                ++ [(runEvents 2 [Event.submit, Event.submit, Event.submit]).nextId])) :=
  ⟨by decide,
   activeCount_le_concurrency 2 [Event.submit, Event.submit, Event.submit] (by decide)⟩

/-- C2: queued requests are admitted strictly in queueing order: the
history of enqueued requests always equals the admitted history followed
by the still-queued requests, the enqueue history is strictly increasing
in submission order, and no entry is duplicated. -/
theorem queue_fifo_order (C : Nat) (es : List Event) :
    (runEvents C es).enqueued
        = (runEvents C es).admitted ++ (runEvents C es).queue
    ∧ (runEvents C es).enqueued.Pairwise (· < ·)
    ∧ (runEvents C es).enqueued.Nodup := by
  have h := inv_runEvents C es
  exact ⟨h.enq_eq, h.enq_sorted, h.enq_sorted.imp Nat.ne_of_lt⟩

/-- C3: settling a running request — with any outcome (success, failure,
timeout) — disarms its timeout guard, decrements the active count by
exactly one, and then attempts one drain of the queue; and in every
reachable state with no request running the active count is 0 (no leak). -/
theorem settlement_decrements_and_drains (C : Nat) (es : List Event)
    (id : Nat) (o : Outcome) (hid : id ∈ (runEvents C es).running) :
    (clearTimer (runEvents C es) id).timersArmed
        = (runEvents C es).timersArmed.erase id
    ∧ (releaseSlot (clearTimer (runEvents C es) id) id).active + 1
        = (runEvents C es).active
    ∧ settleRequest C (runEvents C es) id o
        = processNextQueuedRequest C
            (releaseSlot (clearTimer (runEvents C es) id) id)
    ∧ id ∉ (settleRequest C (runEvents C es) id o).timersArmed
    ∧ (∀ es2 : List Event, (runEvents C es2).running = []
        → (runEvents C es2).active = 0) := by
  have h := inv_runEvents C es
  refine ⟨rfl, ?_, ?_, ?_, ?_⟩
  · have hpos : 0 < (runEvents C es).active := by
      rw [h.active_eq]
      exact List.length_pos_of_mem hid
    exact Nat.sub_add_cancel hpos
  · unfold settleRequest
    rw [if_pos hid]
    cases o <;> rfl
  · exact settle_timer_disarmed C (runEvents C es) id o h hid
  · intro es2 hr
    rw [(inv_runEvents C es2).active_eq, hr]
    rfl

theorem settlement_decrements_and_drains_witness :
    0 ∈ (runEvents 1 [Event.submit]).running
    ∧ ((clearTimer (runEvents 1 [Event.submit]) 0).timersArmed
          = (runEvents 1 [Event.submit]).timersArmed.erase 0
      ∧ (releaseSlot (clearTimer (runEvents 1 [Event.submit]) 0) 0).active + 1
          = (runEvents 1 [Event.submit]).active
      ∧ settleRequest 1 (runEvents 1 [Event.submit]) 0 Outcome.success
          = processNextQueuedRequest 1
              (releaseSlot (clearTimer (runEvents 1 [Event.submit]) 0) 0)
      ∧ 0 ∉ (settleRequest 1 (runEvents 1 [Event.submit]) 0 Outcome.success).timersArmed
      ∧ (∀ es2 : List Event, (runEvents 1 es2).running = []
          → (runEvents 1 es2).active = 0)) :=
  ⟨by decide,
   settlement_decrements_and_drains 1 [Event.submit] 0 Outcome.success (by decide)⟩

/-- C4 (code evaluation at the failing input): calling `fetchList` with a
configuration override permanently changes the global configuration — the
override with `concurrency: 2` leaves the global configuration equal to
`{concurrency: 2, ...}` afterwards, which differs from the prior default
configuration.  This contradicts the claim (and the repository's own test
"should use override config without affecting global state"). -/
theorem fetchList_override_mutates_global :
    fetchListApplyConfig DEFAULT_CONFIG
        (some { concurrency := some 2, timeout := none, defaultInit := none })
      = Except.ok { concurrency := 2, timeout := 30000, defaultInit := {} }
    ∧ ({ concurrency := 2, timeout := 30000, defaultInit := {} } : BatchFetchConfig)
        ≠ DEFAULT_CONFIG := by
  constructor
  · rfl
  · intro hcontra
    have h2 : (2 : ℚ) = 10 := congrArg BatchFetchConfig.concurrency hcontra
    exact absurd h2 (by decide)

/-- C5 (counterexample): the claim that a zero effective timeout value
means "no timeout" is false on the code.  With per-request timeout `0`
and configured default `30000`, the claim's effective value is `0`
(guard never armed, per the spec-modelled `specTimeoutGuard`), but the
code arms the guard with the configured default `30000` (falsy
coalescing); with no per-request value and configured timeout `0`, the
code arms the guard with delay `0` (immediate abort), not "no timeout".
`fetch` likewise drops a zero per-request timeout before it reaches the
store. -/
theorem timeout_zero_counterexample :
    timeoutGuard (some 0) 30000 = some 30000
    ∧ specTimeoutGuard (some 0) 30000 = none
    ∧ timeoutGuard none 0 = some 0
    ∧ specTimeoutGuard none 0 = none
    ∧ fetchPassedTimeout (some 0) = none := by
  exact ⟨rfl, rfl, rfl, rfl, rfl⟩

/-- C5 (amended): the effective timeout is computed by falsy coalescing
(`init?.timeout || config.timeout`): a per-request value of `0` (or an
absent one) falls back to the configured default, and the timeout guard
is always armed with the resulting effective value — including an
effective value of `0`, which arms an immediate timeout rather than no
timeout.  `fetch` forwards a per-request timeout only when it is truthy. -/
theorem effectiveTimeout_falsy_fallback (t : ℚ) (c : ℚ) :
    timeoutGuard (some t) c = some (if t = 0 then c else t)
    ∧ timeoutGuard none c = some c
    ∧ fetchPassedTimeout (some t) = (if t = 0 then none else some t)
    ∧ timeoutGuard (fetchPassedTimeout (some t)) c
        = some (if t = 0 then c else t) := by
  by_cases h : t = 0 <;>
    simp [timeoutGuard, effectiveTimeout, jsTruthyNum, fetchPassedTimeout, h]

/-- C6 (counterexample): a non-integer concurrency value (here `1/2`,
which is not an integer ≥ 1) does not raise any error: `updateConfig`
accepts it and stores it, because validation only runs under a
`Number.isInteger` guard.  Moreover the error actually raised for an
integer concurrency below 1 reads "Concurrency must be at least 1",
not the claimed "concurrency must be at least 1". -/
theorem updateConfig_nonintegral_counterexample :
    updateConfig DEFAULT_CONFIG
        { concurrency := some (mkRat 1 2), timeout := none, defaultInit := none }
      = Except.ok { concurrency := mkRat 1 2, timeout := 30000, defaultInit := {} }
    ∧ (mkRat 1 2).den ≠ 1
    ∧ ¬(1 ≤ mkRat 1 2)
    ∧ updateConfig DEFAULT_CONFIG
        { concurrency := some 0, timeout := none, defaultInit := none }
      = Except.error "Concurrency must be at least 1"
    ∧ "Concurrency must be at least 1" ≠ "concurrency must be at least 1" := by
  refine ⟨rfl, by decide, by decide, rfl, by decide⟩

/-- C6 (amended): `updateConfig` validates the provided concurrency only
when it is an integer — an integer concurrency below 1 raises the error
"Concurrency must be at least 1" while a non-integer value is accepted
unvalidated; whenever the update succeeds, each provided field is applied
and each absent field keeps its previous value; and every error comes
from the validation step, which runs before any field is applied, so a
failed update leaves the configuration untouched. -/
theorem updateConfig_validation (cfg : BatchFetchConfig) (p : ConfigPatch) :
    (numIsInteger p.concurrency = true → p.concurrency.getD 0 < 1 →
        updateConfig cfg p = Except.error "Concurrency must be at least 1")
    ∧ (∀ cfg2, updateConfig cfg p = Except.ok cfg2 →
        cfg2 = { concurrency := p.concurrency.getD cfg.concurrency
                 timeout := p.timeout.getD cfg.timeout
                 defaultInit := p.defaultInit.getD cfg.defaultInit })
    ∧ (∀ e, updateConfig cfg p = Except.error e →
        validateConfig p = Except.error e) := by
  refine ⟨?_, ?_, ?_⟩
  · intro h1 h2
    unfold updateConfig validateConfig validateConcurrency
    rw [h1]
    simp only [if_true]
    rw [if_pos h2]
  · intro cfg2 hok
    unfold updateConfig at hok
    cases hv : validateConfig p with
    | error e =>
      rw [hv] at hok
      exact Except.noConfusion hok
    | ok u =>
      cases u
      rw [hv] at hok
      injection hok with h3
      exact h3.symm
  · intro e herr
    unfold updateConfig at herr
    cases hv : validateConfig p with
    | error e2 =>
      rw [hv] at herr
      injection herr with h3
      rw [h3]
    | ok u =>
      cases u
      rw [hv] at herr
      exact Except.noConfusion herr

theorem updateConfig_validation_witness :
    updateConfig DEFAULT_CONFIG
        { concurrency := some 0, timeout := none, defaultInit := none }
      = Except.error "Concurrency must be at least 1" :=
  (updateConfig_validation DEFAULT_CONFIG
      { concurrency := some 0, timeout := none, defaultInit := none }).1
    (by decide) (by decide)

/-- C7: every outcome returned by `fetchList` on a non-empty input has
exactly one of response/error present, `success` true iff a response is
present, carries `index` equal to its entry's original position, and the
output sequence is positionally aligned with the input (the outcome at
position `i` is the outcome of input entry `i`). -/
theorem fetchList_outcomes (reqs : List FetchArgsModel)
    (transport : Nat → Except String Nat) (hne : reqs ≠ []) (i : Nat)
    (hi : i < reqs.length) :
    (fetchList reqs transport).length = reqs.length
    ∧ ((fetchList reqs transport).getD i dummyResult).index = i
    ∧ ((fetchList reqs transport).getD i dummyResult).success
        = ((fetchList reqs transport).getD i dummyResult).response.isSome
    ∧ ((fetchList reqs transport).getD i dummyResult).response.isSome
        = !((fetchList reqs transport).getD i dummyResult).error.isSome
    ∧ ((fetchList reqs transport).getD i dummyResult).resource
        = (reqs.getD i { resource := 0, init := none }).resource
    ∧ ((fetchList reqs transport).getD i dummyResult).init
        = (reqs.getD i { resource := 0, init := none }).init := by
  have hemp : reqs.isEmpty = false := by
    cases reqs with
    | nil => exact absurd rfl hne
    | cons r rest => rfl
  unfold fetchList
  rw [hemp]
  simp only [Bool.false_eq_true, if_false]
  have hget := fetchListTasks_getD transport reqs 0 i hi
  rw [Nat.zero_add] at hget
  rw [hget, fetchListTasks_length]
  have hmk := mkOutcome_fields (reqs.getD i { resource := 0, init := none }) i
    (transport i)
  exact ⟨rfl, hmk.1, hmk.2.1, hmk.2.2.1, hmk.2.2.2.1, hmk.2.2.2.2⟩

theorem fetchList_outcomes_witness :
    ([{ resource := 5, init := none }] : List FetchArgsModel) ≠ []
    ∧ 0 < ([{ resource := 5, init := none }] : List FetchArgsModel).length
    ∧ ((fetchList [{ resource := 5, init := none }]
          (fun _ => Except.ok 7)).length
        = ([{ resource := 5, init := none }] : List FetchArgsModel).length
      ∧ ((fetchList [{ resource := 5, init := none }]
            (fun _ => Except.ok 7)).getD 0 dummyResult).index = 0
      ∧ ((fetchList [{ resource := 5, init := none }]
            (fun _ => Except.ok 7)).getD 0 dummyResult).success
          = ((fetchList [{ resource := 5, init := none }]
              (fun _ => Except.ok 7)).getD 0 dummyResult).response.isSome
      ∧ ((fetchList [{ resource := 5, init := none }]
            (fun _ => Except.ok 7)).getD 0 dummyResult).response.isSome
          = !((fetchList [{ resource := 5, init := none }]
              (fun _ => Except.ok 7)).getD 0 dummyResult).error.isSome
      ∧ ((fetchList [{ resource := 5, init := none }]
            (fun _ => Except.ok 7)).getD 0 dummyResult).resource
          = (([{ resource := 5, init := none }] : List FetchArgsModel).getD 0
              { resource := 0, init := none }).resource
      ∧ ((fetchList [{ resource := 5, init := none }]
            (fun _ => Except.ok 7)).getD 0 dummyResult).init
          = (([{ resource := 5, init := none }] : List FetchArgsModel).getD 0
              { resource := 0, init := none }).init) :=
  ⟨by decide, by decide,
   fetchList_outcomes [{ resource := 5, init := none }] (fun _ => Except.ok 7)
     (by decide) 0 (by decide)⟩

/-- C8 (code evaluation): `getStatus` returns a record with exactly the
three fields `{activeRequests, queueLength, config}` — the `FetchStatus`
shape embedded from the source return type, which has no `concurrency`
field — with `activeRequests` the current active count, `queueLength`
the queue length and `config` the configuration snapshot. -/
theorem getStatus_fields :
    getStatus initialStore DEFAULT_CONFIG
      = { activeRequests := 0, queueLength := 0, config := DEFAULT_CONFIG }
    ∧ ∀ (s : StoreState) (cfg : BatchFetchConfig),
        getStatus s cfg
          = { activeRequests := s.active, queueLength := s.queue.length
              config := cfg } :=
  ⟨rfl, fun _ _ => rfl⟩

/-- C9: `getSuccessfulResults` and `getFailedResults` partition any
outcome list exactly: together they form a permutation of the input (so
no omission and each occurrence appears exactly once overall), each is an
order-preserving sublist of the input, every member of the first has
`success = true` and of the second `success = false`, every input outcome
lands in the matching side, and no outcome is in both. -/
theorem results_partition (results : List BatchFetchResult) :
    List.Perm (getSuccessfulResults results ++ getFailedResults results) results
    ∧ List.Sublist (getSuccessfulResults results) results
    ∧ List.Sublist (getFailedResults results) results
    ∧ (∀ r ∈ getSuccessfulResults results, r.success = true)
    ∧ (∀ r ∈ getFailedResults results, r.success = false)
    ∧ (∀ r ∈ results, r.success = true → r ∈ getSuccessfulResults results)
    ∧ (∀ r ∈ results, r.success = false → r ∈ getFailedResults results)
    ∧ (∀ r, ¬(r ∈ getSuccessfulResults results ∧ r ∈ getFailedResults results)) := by
  refine ⟨List.filter_append_perm _ results, List.filter_sublist results,
    List.filter_sublist results, ?_, ?_, ?_, ?_, ?_⟩
  · intro r hr
    exact (List.mem_filter.1 hr).2
  · intro r hr
    have h2 := (List.mem_filter.1 hr).2
    cases hs : r.success with
    | false => rfl
    | true =>
      rw [hs] at h2
      exact absurd h2 (by decide)
  · intro r hr hs
    exact List.mem_filter.2 ⟨hr, hs⟩
  · intro r hr hs
    refine List.mem_filter.2 ⟨hr, ?_⟩
    rw [hs]
    rfl
  · intro r hcontra
    have h1 := (List.mem_filter.1 hcontra.1).2
    have h2 := (List.mem_filter.1 hcontra.2).2
    rw [h1] at h2
    exact absurd h2 (by decide)

theorem results_partition_witness :
    List.Perm
        (getSuccessfulResults [dummyResult] ++ getFailedResults [dummyResult])
        [dummyResult]
    ∧ List.Sublist (getSuccessfulResults [dummyResult]) [dummyResult]
    ∧ List.Sublist (getFailedResults [dummyResult]) [dummyResult]
    ∧ (∀ r ∈ getSuccessfulResults [dummyResult], r.success = true)
    ∧ (∀ r ∈ getFailedResults [dummyResult], r.success = false)
    ∧ (∀ r ∈ [dummyResult], r.success = true → r ∈ getSuccessfulResults [dummyResult])
    ∧ (∀ r ∈ [dummyResult], r.success = false → r ∈ getFailedResults [dummyResult])
    ∧ (∀ r, ¬(r ∈ getSuccessfulResults [dummyResult] ∧ r ∈ getFailedResults [dummyResult])) :=
  results_partition [dummyResult]

/-- C10: the options handed to the transport always carry the store's own
freshly created abort signal: whatever signal the caller put in the
per-request options or in the default options, the merged options'
`signal` field is the store controller's signal. -/
theorem transport_signal_overridden (dflt : RequestInitModel)
    (init : Option RequestInitModel) (storeSignal : Nat) :
    (mergeInit dflt init storeSignal).signal = some storeSignal
    ∧ ∀ callerSignal : Nat,
        (mergeInit { dflt with signal := some callerSignal } init storeSignal).signal
          = some storeSignal
        ∧ (mergeInit dflt
            (some { method := none, headers := none, signal := some callerSignal })
            storeSignal).signal
          = some storeSignal := by
  cases init <;> exact ⟨rfl, fun _ => ⟨rfl, rfl⟩⟩

end BatchFetch
